import Mathlib

/-!
Shallow embedding of the stockmap-cli screening core: the indicator and
valuation math (`internal/analysis`), the scoring engine
(`internal/screener/scoring.go`), the screening engine (filter, watchlist
overlay, sort) and the concurrent fetch pool (`internal/fetcher/pool.go`).

Go `float64` values are modelled as rationals `ℚ`; the two places where the
code manufactures or tests IEEE +Inf (`analysis.PBV`, the P/E bucket of
`analysis.ValuationScore`) use `WithTop ℚ`, whose `⊤` stands for +Inf.
`math.Sqrt` is an external pure function of the runtime; it is passed in as
an uninterpreted parameter `sq : ℚ → ℚ`, so every theorem below holds for
every possible square-root implementation.  The worker pool is modelled as a
small-step transition system over its two channels, and `sort.Slice` by its
documented contract: some permutation of the input that is sorted with
respect to the comparator (Go's `sort.Slice` promises nothing more; it is
not stable).
-/

namespace StockMap

/-- `diffs [p0, p1, p2, ...] = [p1 - p0, p2 - p1, ...]`: the consecutive
deltas `prices[i] - prices[i-1]` walked by the Go loops. -/
def diffs : List ℚ → List ℚ
  | a :: b :: rest => (b - a) :: diffs (b :: rest)
  | _ => []

/-- One iteration of Wilder's smoothing in `analysis.RSI`: state is
`(avgGain, avgLoss)`. -/
def wilderStep (period : ℕ) (s : ℚ × ℚ) (change : ℚ) : ℚ × ℚ :=
  if 0 < change then
    ((s.1 * ((period : ℚ) - 1) + change) / period, s.2 * ((period : ℚ) - 1) / period)
  else
    (s.1 * ((period : ℚ) - 1) / period, (s.2 * ((period : ℚ) - 1) + |change|) / period)

/-- The seeding loop of `analysis.RSI`: initial `(avgGain, avgLoss)` is
the simple mean of the positive respectively absolute negative parts of
the first `period` deltas. -/
def rsiSeed (changes : List ℚ) (period : ℕ) : ℚ × ℚ :=
  (((changes.take period).map fun c => if 0 < c then c else 0).sum / period,
   ((changes.take period).map fun c => if 0 < c then 0 else |c|).sum / period)

/-- The tail of `analysis.RSI`: the guarded division turning the smoothed
`(avgGain, avgLoss)` into an index (`avgLoss == 0` returns 100). -/
def rsiFromAvg (s : ℚ × ℚ) : ℚ :=
  if s.2 = 0 then 100 else 100 - 100 / (1 + s.1 / s.2)

/-- `analysis.RSI` (indicators.go): neutral 50 on short history, seed
averages from the first `period` deltas, Wilder-smooth the remaining
deltas, then the guarded division. -/
def RSI (prices : List ℚ) (period : ℕ) : ℚ :=
  if prices.length < period + 1 then 50
  else
    rsiFromAvg
      (((diffs prices).drop period).foldl (wilderStep period) (rsiSeed (diffs prices) period))

/-- The true-range series of `analysis.ATR`: `tr[0] = high[0] - low[0]`,
`tr[i] = max(high-low, |high-prevClose|, |low-prevClose|)`. -/
def trueRanges (high low close : List ℚ) : List ℚ :=
  (List.range high.length).map fun i =>
    if i = 0 then high.getD 0 0 - low.getD 0 0
    else
      max (high.getD i 0 - low.getD i 0)
        (max |high.getD i 0 - close.getD (i - 1) 0| |low.getD i 0 - close.getD (i - 1) 0|)

/-- `analysis.ATR` (indicators.go): 0 on short history, initial simple mean
of the first `period` true ranges, then Wilder smoothing. -/
def ATR (high low close : List ℚ) (period : ℕ) : ℚ :=
  if high.length < period + 1 ∨ low.length < period + 1 ∨ close.length < period + 1 then 0
  else
    let tr := trueRanges high low close
    let atr0 := (tr.take period).sum / period
    (tr.drop period).foldl (fun atr t => (atr * ((period : ℚ) - 1) + t) / period) atr0

/-- `analysis.SMA` (indicators.go): trailing simple mean of the last
`period` prices, 0 on short history. -/
def SMA (prices : List ℚ) (period : ℕ) : ℚ :=
  if prices.length < period then 0
  else (prices.drop (prices.length - period)).sum / period

/-- `analysis.IsOversold` (indicators.go). -/
def IsOversold (rsi threshold : ℚ) : Bool := rsi < threshold

/-- `analysis.PBV` (valuation): `price/bvps`, +Inf (`⊤`) when `bvps ≤ 0`. -/
def PBV (price bookValuePerShare : ℚ) : WithTop ℚ :=
  if bookValuePerShare ≤ 0 then ⊤ else ((price / bookValuePerShare : ℚ) : WithTop ℚ)

/-- `analysis.GrahamNumber`: `sqrt(22.5·eps·bvps)`, 0 when either input is
not positive; `sq` models `math.Sqrt`. -/
def GrahamNumber (sq : ℚ → ℚ) (eps bookValuePerShare : ℚ) : ℚ :=
  if eps ≤ 0 ∨ bookValuePerShare ≤ 0 then 0
  else sq ((45 / 2) * eps * bookValuePerShare)

/-- `analysis.GrahamUpside`: percentage upside to the Graham number, 0 on
invalid inputs. -/
def GrahamUpside (price grahamNumber : ℚ) : ℚ :=
  if grahamNumber ≤ 0 ∨ price ≤ 0 then 0
  else (grahamNumber - price) / price * 100

/-- `analysis.IsUndervalued`: `pbv < 1.5 ∧ grahamUpside > 20`. -/
def IsUndervalued (pbv : WithTop ℚ) (grahamUpside : ℚ) : Bool :=
  decide (pbv < ((3 / 2 : ℚ) : WithTop ℚ) ∧ 20 < grahamUpside)

/-- The PBV bucket of `analysis.ValuationScore` (max 35 points). -/
def pbvPoints (pbv : WithTop ℚ) : ℚ :=
  if pbv < ((1 / 2 : ℚ) : WithTop ℚ) then 35
  else if pbv < ((1 : ℚ) : WithTop ℚ) then 30
  else if pbv < ((3 / 2 : ℚ) : WithTop ℚ) then 25
  else if pbv < ((2 : ℚ) : WithTop ℚ) then 15
  else if pbv < ((3 : ℚ) : WithTop ℚ) then 5
  else 0

/-- The Graham-upside bucket of `analysis.ValuationScore` (max 35 points). -/
def grahamPoints (grahamUpside : ℚ) : ℚ :=
  if 50 < grahamUpside then 35
  else if 30 < grahamUpside then 30
  else if 20 < grahamUpside then 25
  else if 10 < grahamUpside then 15
  else if 0 < grahamUpside then 5
  else 0

/-- The P/E bucket of `analysis.ValuationScore` (max 30 points); the whole
bucket is skipped when the P/E ratio is +Inf (`!math.IsInf(peRatio, 1)`). -/
def pePoints (peRatio : WithTop ℚ) : ℚ :=
  if peRatio = ⊤ then 0
  else if peRatio < ((10 : ℚ) : WithTop ℚ) then 30
  else if peRatio < ((15 : ℚ) : WithTop ℚ) then 25
  else if peRatio < ((20 : ℚ) : WithTop ℚ) then 20
  else if peRatio < ((25 : ℚ) : WithTop ℚ) then 10
  else 0

/-- `analysis.ValuationScore`: the score accumulates the three buckets. -/
def ValuationScore (pbv : WithTop ℚ) (grahamUpside : ℚ) (peRatio : WithTop ℚ) : ℚ :=
  pbvPoints pbv + grahamPoints grahamUpside + pePoints peRatio

/-- Go `math.Round`: nearest integer, halves away from zero. -/
def goRound (x : ℚ) : ℤ :=
  if 0 ≤ x then ⌊x + 1 / 2⌋ else -⌊-x + 1 / 2⌋

/-- `math.Round(x*100)/100`, the two-decimal rounding used by
`analysis.CalculateSLTP`. -/
def round2 (x : ℚ) : ℚ := ((goRound (x * 100) : ℤ) : ℚ) / 100

/-- `analysis.RiskReward` (risk.go). -/
structure RiskReward where
  StopLoss : ℚ
  TakeProfit : ℚ
  RiskPercent : ℚ
  RewardPercent : ℚ
  RiskRatio : ℚ
  deriving DecidableEq

/-- `analysis.CalculateSLTP` (risk.go): ATR-based stop-loss/take-profit,
with `price*0.02` substituted when `atr ≤ 0`, and every output rounded to
two decimals. -/
def CalculateSLTP (currentPrice atr slMultiplier tpMultiplier : ℚ) : RiskReward :=
  let atr := if atr ≤ 0 then currentPrice * (2 / 100) else atr
  let sl := currentPrice - atr * slMultiplier
  let tp := currentPrice + atr * tpMultiplier
  let riskPercent := (currentPrice - sl) / currentPrice * 100
  let rewardPercent := (tp - currentPrice) / currentPrice * 100
  let riskRatio := if 0 < riskPercent then rewardPercent / riskPercent else 0
  { StopLoss := round2 sl
    TakeProfit := round2 tp
    RiskPercent := round2 riskPercent
    RewardPercent := round2 rewardPercent
    RiskRatio := round2 riskRatio }

/-- The per-step simple returns `(p[i]-p[i-1])/p[i-1]` of
`analysis.Volatility`. -/
def simpleReturns : List ℚ → List ℚ
  | a :: b :: rest => ((b - a) / a) :: simpleReturns (b :: rest)
  | _ => []

/-- `analysis.Volatility` (risk.go): annualized standard deviation of daily
simple returns, as a percentage; `sq` models `math.Sqrt`. -/
def Volatility (sq : ℚ → ℚ) (prices : List ℚ) : ℚ :=
  if prices.length < 2 then 0
  else
    let returns := simpleReturns prices
    let mean := returns.sum / (returns.length : ℚ)
    let variance := ((returns.map (fun r => (r - mean) * (r - mean))).sum) / (returns.length : ℚ)
    sq variance * sq 252 * 100

/-- `fetcher.StockData` (the fields the scoring path reads); `Error` is the
wrapped per-symbol fetch error. -/
structure StockData where
  Symbol : String := ""
  ShortName : String := ""
  Price : ℚ := 0
  Change : ℚ := 0
  ChangePercent : ℚ := 0
  Volume : ℤ := 0
  MarketCap : ℤ := 0
  Exchange : String := ""
  PERatio : WithTop ℚ := 0
  EPS : ℚ := 0
  BookValue : ℚ := 0
  HistoricalPrices : List ℚ := []
  HistoricalHighs : List ℚ := []
  HistoricalLows : List ℚ := []
  HistoricalCloses : List ℚ := []
  Error : Option String := none
  deriving DecidableEq

/-- `screener.ScreenResult` (scoring.go); defaults are Go zero values. -/
structure ScreenResult where
  Symbol : String := ""
  Name : String := ""
  Price : ℚ := 0
  Change : ℚ := 0
  ChangePercent : ℚ := 0
  Volume : ℤ := 0
  MarketCap : ℤ := 0
  Exchange : String := ""
  RSI : ℚ := 0
  ATR : ℚ := 0
  SMA20 : ℚ := 0
  SMA50 : ℚ := 0
  PBV : WithTop ℚ := 0
  PERatio : WithTop ℚ := 0
  EPS : ℚ := 0
  BookValue : ℚ := 0
  GrahamNumber : ℚ := 0
  GrahamUpside : ℚ := 0
  DividendYield : ℚ := 0
  StopLoss : ℚ := 0
  TakeProfit : ℚ := 0
  RiskRatio : ℚ := 0
  Volatility : ℚ := 0
  HistoricalPrices : List ℚ := []
  TechnicalScore : ℚ := 0
  ValuationScore : ℚ := 0
  RiskScore : ℚ := 0
  ConfluenceScore : ℚ := 0
  IsOversold : Bool := false
  IsUndervalued : Bool := false
  IsPinned : Bool := false
  HasError : Bool := false
  ErrorMessage : String := ""
  deriving DecidableEq

/-- `screener.calculateTechnicalScore` (scoring.go): RSI bucket (max 50) +
price-below-SMA20 discount bucket (max 30) + risk:reward bucket (max 20). -/
def calculateTechnicalScore (r : ScreenResult) : ℚ :=
  (if 0 < r.RSI then
    (if r.RSI < 25 then 50
     else if r.RSI < 30 then 45
     else if r.RSI < 35 then 40
     else if r.RSI < 40 then 30
     else if r.RSI < 50 then 20
     else if r.RSI < 60 then 10
     else 0)
   else 0)
  + (if 0 < r.SMA20 ∧ r.Price < r.SMA20 then
      (if 10 < (r.SMA20 - r.Price) / r.SMA20 * 100 then 30
       else if 5 < (r.SMA20 - r.Price) / r.SMA20 * 100 then 20
       else 10)
     else 0)
  + (if 3 ≤ r.RiskRatio then 20
     else if 2 ≤ r.RiskRatio then 15
     else if (3 / 2) ≤ r.RiskRatio then 10
     else if 1 ≤ r.RiskRatio then 5
     else 0)

/-- `screener.calculateRiskAdjustedScore` (scoring.go): monotone step
function of volatility. -/
def calculateRiskAdjustedScore (r : ScreenResult) : ℚ :=
  if r.Volatility < 20 then 100
  else if r.Volatility < 30 then 80
  else if r.Volatility < 40 then 60
  else if r.Volatility < 50 then 40
  else if r.Volatility < 60 then 20
  else 10

/-- `screener.calculateConfluenceScore` (scoring.go): weighted average of
the three sub-scores, plus the four confluence bonuses, capped at 100. -/
def calculateConfluenceScore (r : ScreenResult) : ℚ :=
  let score := r.TechnicalScore * (3 / 10) + r.ValuationScore * (4 / 10)
    + r.RiskScore * (3 / 10)
  let bonusPoints : ℚ :=
    (if r.IsOversold ∧ r.IsUndervalued then 10 else 0)
    + (if 0 < r.PBV ∧ r.PBV < ((1 : ℚ) : WithTop ℚ) then 5 else 0)
    + (if 50 < r.GrahamUpside then 5 else 0)
    + (if (5 / 2) ≤ r.RiskRatio then 5 else 0)
  min (score + bonusPoints) 100

/-- The struct literal at the top of `screener.CalculateMetrics`: identity
and raw quote/fundamental fields copied from the fetch data. -/
def baseResult (data : StockData) : ScreenResult :=
  { Symbol := data.Symbol
    Name := data.ShortName
    Price := data.Price
    Change := data.Change
    ChangePercent := data.ChangePercent
    Volume := data.Volume
    MarketCap := data.MarketCap
    Exchange := data.Exchange
    PERatio := data.PERatio
    EPS := data.EPS
    BookValue := data.BookValue }

/-- The indicator block of `screener.CalculateMetrics` (the error-free
path up to the score computations): RSI/ATR/SMA guards, PBV only when
`BookValue > 0`, Graham only when `EPS > 0 ∧ BookValue > 0`, SL/TP with
multipliers 2 and 3, volatility guard, historical prices retained. -/
def indicatorStage (sq : ℚ → ℚ) (data : StockData) : ScreenResult :=
  let rsi := if 14 < data.HistoricalPrices.length then RSI data.HistoricalPrices 14 else 0
  let isOversold :=
    if 14 < data.HistoricalPrices.length then IsOversold rsi 35 else false
  let atr :=
    if 14 < data.HistoricalHighs.length then
      ATR data.HistoricalHighs data.HistoricalLows data.HistoricalCloses 14
    else 0
  let sma20 := if 20 ≤ data.HistoricalPrices.length then SMA data.HistoricalPrices 20 else 0
  let sma50 := if 50 ≤ data.HistoricalPrices.length then SMA data.HistoricalPrices 50 else 0
  let pbv : WithTop ℚ := if 0 < data.BookValue then PBV data.Price data.BookValue else 0
  let grahamNumber :=
    if 0 < data.EPS ∧ 0 < data.BookValue then GrahamNumber sq data.EPS data.BookValue else 0
  let grahamUpside :=
    if 0 < data.EPS ∧ 0 < data.BookValue then GrahamUpside data.Price grahamNumber else 0
  let isUndervalued := IsUndervalued pbv grahamUpside
  let risk := CalculateSLTP data.Price atr 2 3
  let volatility :=
    if 10 < data.HistoricalPrices.length then Volatility sq data.HistoricalPrices else 0
  { baseResult data with
    RSI := rsi
    IsOversold := isOversold
    ATR := atr
    SMA20 := sma20
    SMA50 := sma50
    PBV := pbv
    GrahamNumber := grahamNumber
    GrahamUpside := grahamUpside
    IsUndervalued := isUndervalued
    StopLoss := risk.StopLoss
    TakeProfit := risk.TakeProfit
    RiskRatio := risk.RiskRatio
    Volatility := volatility
    HistoricalPrices := data.HistoricalPrices }

/-- The score block at the end of `screener.CalculateMetrics`: the four
scores are computed in order on the partially-filled result. -/
def scoreStage (r1 : ScreenResult) : ScreenResult :=
  let r2 := { r1 with TechnicalScore := calculateTechnicalScore r1 }
  let r3 := { r2 with ValuationScore := ValuationScore r2.PBV r2.GrahamUpside r2.PERatio }
  let r4 := { r3 with RiskScore := calculateRiskAdjustedScore r3 }
  { r4 with ConfluenceScore := calculateConfluenceScore r4 }

/-- `screener.CalculateMetrics` (scoring.go): short-circuit on a carried
fetch error, otherwise indicators then scores. -/
def CalculateMetrics (sq : ℚ → ℚ) (data : StockData) : ScreenResult :=
  match data.Error with
  | some e => { baseResult data with HasError := true, ErrorMessage := e }
  | none => scoreStage (indicatorStage sq data)

/-- `screener.FilterCriteria` (screening engine). -/
structure FilterCriteria where
  MinRSI : ℚ := 0
  MaxRSI : ℚ := 0
  MaxPBV : ℚ := 0
  MinGrahamUpside : ℚ := 0
  MinConfluence : ℚ := 0
  OnlyOversold : Bool := false
  OnlyUndervalued : Bool := false
  deriving DecidableEq

/-- `Engine.passesFilter`: the early-return chain of the Go method. -/
def passesFilter (c : FilterCriteria) (r : ScreenResult) : Bool :=
  if r.HasError then false
  else if (r.RSI < c.MinRSI ∨ c.MaxRSI < r.RSI) ∧ 0 < r.RSI then false
  else if ((c.MaxPBV : ℚ) : WithTop ℚ) < r.PBV ∧ (0 : WithTop ℚ) < r.PBV then false
  else if r.GrahamUpside < c.MinGrahamUpside then false
  else if r.ConfluenceScore < c.MinConfluence then false
  else if c.OnlyOversold ∧ ¬r.IsOversold then false
  else if c.OnlyUndervalued ∧ ¬r.IsUndervalued then false
  else true

/-- `watchlist.Manager.IsPinned`: membership of the upper-cased symbol in
the watchlist's key set (keys are stored upper-cased on load/add). -/
def isPinned (watchlist : List String) (symbol : String) : Bool :=
  watchlist.contains symbol.toUpper

/-- One iteration of the streaming loop in `Engine.Scan`: score the
arriving data, mark the pin flag, and append the result only when it is
pinned or passes the filter. -/
def scanStep (sq : ℚ → ℚ) (watchlist : List String) (c : FilterCriteria)
    (acc : List ScreenResult) (data : StockData) : List ScreenResult :=
  let r0 := CalculateMetrics sq data
  let r := { r0 with IsPinned := isPinned watchlist r0.Symbol }
  if r.IsPinned || passesFilter c r then acc ++ [r] else acc

/-- The accumulated results of `Engine.Scan`'s streaming loop over the
pool's delivered data, in delivery order. -/
def scanLoop (sq : ℚ → ℚ) (watchlist : List String) (c : FilterCriteria)
    (delivered : List StockData) : List ScreenResult :=
  delivered.foldl (scanStep sq watchlist c) []

/-- The zero-value placeholder synthesized for a watchlist symbol absent
from the results (`Engine.addWatchlistPlaceholders`, `Engine.AddToWatchlist`). -/
def placeholderFor (symbol : String) : ScreenResult :=
  { Symbol := symbol, Name := symbol, IsPinned := true }

/-- `Engine.addWatchlistPlaceholders`: append a placeholder for every
watchlist symbol whose symbol is not already among the results. -/
def addWatchlistPlaceholders (watchlist : List String)
    (results : List ScreenResult) : List ScreenResult :=
  results ++
    (watchlist.filter fun s => !(results.any fun r => r.Symbol == s)).map placeholderFor

/-- The comparator passed to `sort.Slice` by `Engine.sortResults`: pinned
items first, then descending confluence score. -/
def resultLess (a b : ScreenResult) : Bool :=
  if a.IsPinned ∧ ¬b.IsPinned then true
  else if ¬a.IsPinned ∧ b.IsPinned then false
  else decide (b.ConfluenceScore < a.ConfluenceScore)

/-- The documented contract of `sort.Slice` as used by
`Engine.sortResults`: the output is some permutation of the input that is
pairwise sorted for the comparator.  (`sort.Slice` is documented as NOT
stable; which sorted permutation appears is implementation-defined.) -/
def sortResultsRel (input output : List ScreenResult) : Prop :=
  input.Perm output ∧ List.Pairwise (fun x y => resultLess y x = false) output

/-- The output `Engine.sortResults` would have to produce if, as the spec
asserts, it performed a stable pinned-first partition with descending
confluence inside each partition: a stable insertion sort under the
comparator's non-strict companion relation. -/
def sortResultsStable (l : List ScreenResult) : List ScreenResult :=
  l.insertionSort fun a b => resultLess b a = false

/-- `Engine.Scan` end-to-end as a relation from the stream of delivered
`StockData` to the returned list: streaming filter loop, watchlist
placeholders, then the `sort.Slice` sort. -/
def ScanRel (sq : ℚ → ℚ) (watchlist : List String) (c : FilterCriteria)
    (delivered : List StockData) (output : List ScreenResult) : Prop :=
  sortResultsRel (addWatchlistPlaceholders watchlist (scanLoop sq watchlist c delivered)) output

/-- The worker body's wrapping of a fetch failure (`pool.go` worker): a
failed `FetchComplete` is replaced by `StockData{Symbol, Error}`. -/
def fetchResult (fetch : String → Except String StockData) (symbol : String) : StockData :=
  match fetch symbol with
  | .ok data => data
  | .error e => { Symbol := symbol, Error := some e }

/-- The pool's observable state: the buffered symbol channel (pre-filled,
then closed), the symbols currently held by workers, and the buffered
result channel in emission order. -/
structure PoolState where
  queue : List String
  inflight : List String
  emitted : List StockData
  deriving DecidableEq

/-- Small-step semantics of the worker pool with `W` workers and no
cancellation: a worker either picks the next symbol off the symbol channel
(at most `W` symbols can be held at once) or finishes its fetch and pushes
the (possibly error-wrapped) result onto the result channel. -/
inductive PoolStep (W : ℕ) (fetch : String → Except String StockData) :
    PoolState → PoolState → Prop where
  | pick (s : String) (q infl : List String) (em : List StockData) :
      infl.length < W →
      PoolStep W fetch ⟨s :: q, infl, em⟩ ⟨q, infl ++ [s], em⟩
  | emit (q : List String) (infl₁ infl₂ : List String) (s : String) (em : List StockData) :
      PoolStep W fetch ⟨q, infl₁ ++ s :: infl₂, em⟩
        ⟨q, infl₁ ++ infl₂, em ++ [fetchResult fetch s]⟩

/-- `WorkerPool.FetchAll` with no cancellation: it drains the result
channel until all workers have exited, which happens exactly when the
symbol channel is exhausted and no fetch is in flight; the returned slice
is the emission sequence. -/
def FetchAllRel (W : ℕ) (fetch : String → Except String StockData)
    (symbols : List String) (output : List StockData) : Prop :=
  ∃ final : PoolState,
    Relation.ReflTransGen (PoolStep W fetch) ⟨symbols, [], []⟩ final ∧
    final.queue = [] ∧ final.inflight = [] ∧ final.emitted = output

/-- The multiset of results every pool execution conserves: results still
to be produced (queue and in-flight symbols, each mapped through the
worker body) together with results already emitted. -/
def poolMeasure (fetch : String → Except String StockData) (st : PoolState) :
    Multiset StockData :=
  (((st.queue ++ st.inflight).map (fetchResult fetch) : List StockData) : Multiset StockData)
    + (st.emitted : Multiset StockData)

/-- A trivial stand-in for `math.Sqrt` used to instantiate theorems at
concrete inputs. -/
def sqZero : ℚ → ℚ := fun _ => 0

/-- Zero-valued filter criteria, used to instantiate theorems at concrete
inputs. -/
def c0 : FilterCriteria := {}

/-- Error-free sample fetch data for concrete instantiations. -/
def dOk : StockData := { Symbol := "T" }

/-- Sample fetch data carrying an error and a stray non-zero price. -/
def dBad : StockData := { Symbol := "X", Price := 5, Error := some "fetch failed" }

/-- A data source whose every fetch fails, for concrete instantiations. -/
def fetchNone : String → Except String StockData := fun _ => Except.error "network"

/-- Sample unpinned result with confluence 50 (first of a tied pair). -/
def rA : ScreenResult := { Symbol := "A", ConfluenceScore := 50 }

/-- Sample unpinned result with confluence 50 (second of a tied pair). -/
def rB : ScreenResult := { Symbol := "B", ConfluenceScore := 50 }

lemma calculateTechnicalScore_nonneg (r : ScreenResult) : 0 ≤ calculateTechnicalScore r := by
  unfold calculateTechnicalScore
  split_ifs <;> norm_num

lemma pbvPoints_nonneg (pbv : WithTop ℚ) : 0 ≤ pbvPoints pbv := by
  unfold pbvPoints
  split_ifs <;> norm_num

lemma grahamPoints_nonneg (grahamUpside : ℚ) : 0 ≤ grahamPoints grahamUpside := by
  unfold grahamPoints
  split_ifs <;> norm_num

lemma pePoints_nonneg (peRatio : WithTop ℚ) : 0 ≤ pePoints peRatio := by
  unfold pePoints
  split_ifs <;> norm_num

lemma valuationScore_nonneg (pbv : WithTop ℚ) (grahamUpside : ℚ) (peRatio : WithTop ℚ) :
    0 ≤ ValuationScore pbv grahamUpside peRatio :=
  add_nonneg (add_nonneg (pbvPoints_nonneg pbv) (grahamPoints_nonneg grahamUpside))
    (pePoints_nonneg peRatio)

lemma calculateRiskAdjustedScore_nonneg (r : ScreenResult) :
    0 ≤ calculateRiskAdjustedScore r := by
  unfold calculateRiskAdjustedScore
  split_ifs <;> norm_num

lemma calculateConfluenceScore_bounds (r : ScreenResult) (ht : 0 ≤ r.TechnicalScore)
    (hv : 0 ≤ r.ValuationScore) (hk : 0 ≤ r.RiskScore) :
    0 ≤ calculateConfluenceScore r ∧ calculateConfluenceScore r ≤ 100 := by
  unfold calculateConfluenceScore
  constructor
  · refine le_min ?_ (by norm_num)
    have hb : (0 : ℚ) ≤
        (if r.IsOversold ∧ r.IsUndervalued then 10 else 0)
        + (if 0 < r.PBV ∧ r.PBV < ((1 : ℚ) : WithTop ℚ) then 5 else 0)
        + (if 50 < r.GrahamUpside then 5 else 0)
        + (if (5 / 2) ≤ r.RiskRatio then 5 else 0) := by
      split_ifs <;> norm_num
    linarith
  · exact min_le_right _ _

lemma scoreStage_spec (r : ScreenResult) :
    scoreStage r = { r with
      TechnicalScore := calculateTechnicalScore r
      ValuationScore := ValuationScore r.PBV r.GrahamUpside r.PERatio
      RiskScore := calculateRiskAdjustedScore r
      ConfluenceScore := calculateConfluenceScore { r with
        TechnicalScore := calculateTechnicalScore r
        ValuationScore := ValuationScore r.PBV r.GrahamUpside r.PERatio
        RiskScore := calculateRiskAdjustedScore r } } := rfl

lemma calculateMetrics_ok (sq : ℚ → ℚ) (d : StockData) (h : d.Error = none) :
    CalculateMetrics sq d = scoreStage (indicatorStage sq d) := by
  unfold CalculateMetrics
  rw [h]

/-- C1: for every `ScreenResult` produced by `CalculateMetrics` from
error-free data, the confluence score equals
`0.30·technical + 0.40·valuation + 0.30·risk` plus the four bonuses
(+10 oversold∧undervalued, +5 for `0 < PBV < 1`, +5 for Graham upside
> 50, +5 for risk:reward ≥ 2.5), clamped above at 100, and always lies in
`[0, 100]` — the lower bound needing no clamp since every component and
bonus is non-negative. -/
theorem confluence_score_formula_and_bounds (sq : ℚ → ℚ) (d : StockData) (r : ScreenResult)
    (herr : d.Error = none) (hr : r = CalculateMetrics sq d) :
    r.ConfluenceScore =
      min (r.TechnicalScore * (3 / 10) + r.ValuationScore * (4 / 10) + r.RiskScore * (3 / 10)
        + ((if r.IsOversold ∧ r.IsUndervalued then 10 else 0)
           + (if 0 < r.PBV ∧ r.PBV < ((1 : ℚ) : WithTop ℚ) then 5 else 0)
           + (if 50 < r.GrahamUpside then 5 else 0)
           + (if (5 / 2) ≤ r.RiskRatio then 5 else 0))) 100
    ∧ 0 ≤ r.ConfluenceScore ∧ r.ConfluenceScore ≤ 100 := by
  subst hr
  rw [calculateMetrics_ok sq d herr, scoreStage_spec]
  set r1 := indicatorStage sq d with hr1
  set r4 : ScreenResult := { r1 with
    TechnicalScore := calculateTechnicalScore r1
    ValuationScore := ValuationScore r1.PBV r1.GrahamUpside r1.PERatio
    RiskScore := calculateRiskAdjustedScore r1 } with hr4
  have hbounds := calculateConfluenceScore_bounds r4
    (calculateTechnicalScore_nonneg r1)
    (valuationScore_nonneg r1.PBV r1.GrahamUpside r1.PERatio)
    (calculateRiskAdjustedScore_nonneg r1)
  exact ⟨rfl, hbounds.1, hbounds.2⟩

/-- C1 witness: the theorem applied at a concrete error-free input. -/
theorem confluence_score_formula_and_bounds_witness :
    0 ≤ (CalculateMetrics sqZero dOk).ConfluenceScore
    ∧ (CalculateMetrics sqZero dOk).ConfluenceScore ≤ 100 :=
  (confluence_score_formula_and_bounds sqZero dOk _ rfl rfl).2

/-- C2 counterexample: a `StockData` carrying an error and a stray
non-zero price yields a result with `HasError` set whose `Price` — a raw
quote field, not an identity field — is populated with that stray value,
so the error path does not populate "only identity fields". -/
theorem error_shortcircuit_counterexample :
    (CalculateMetrics sqZero dBad).HasError = true
    ∧ (CalculateMetrics sqZero dBad).Price = 5
    ∧ (CalculateMetrics sqZero dBad).Price ≠ 0 := by
  decide

/-- C2 amended: with `Error` set, `CalculateMetrics` returns a result with
`HasError = true`, `ErrorMessage` from the error, all four scores zero, no
indicator computation performed (all computed fields at their zero
values), and the identity plus raw quote/fundamental fields (price,
change, change percent, volume, market cap, P/E, EPS, book value) copied
from the input — including any stray non-zero numeric values among them. -/
theorem error_shortcircuit_fields (sq : ℚ → ℚ) (d : StockData) (e : String)
    (h : d.Error = some e) :
    CalculateMetrics sq d =
      { Symbol := d.Symbol, Name := d.ShortName, Price := d.Price, Change := d.Change,
        ChangePercent := d.ChangePercent, Volume := d.Volume, MarketCap := d.MarketCap,
        Exchange := d.Exchange, PERatio := d.PERatio, EPS := d.EPS, BookValue := d.BookValue,
        HasError := true, ErrorMessage := e }
    ∧ (CalculateMetrics sq d).TechnicalScore = 0
    ∧ (CalculateMetrics sq d).ValuationScore = 0
    ∧ (CalculateMetrics sq d).RiskScore = 0
    ∧ (CalculateMetrics sq d).ConfluenceScore = 0
    ∧ (CalculateMetrics sq d).RSI = 0
    ∧ (CalculateMetrics sq d).ATR = 0
    ∧ (CalculateMetrics sq d).SMA20 = 0
    ∧ (CalculateMetrics sq d).SMA50 = 0
    ∧ (CalculateMetrics sq d).PBV = 0
    ∧ (CalculateMetrics sq d).GrahamNumber = 0
    ∧ (CalculateMetrics sq d).GrahamUpside = 0
    ∧ (CalculateMetrics sq d).StopLoss = 0
    ∧ (CalculateMetrics sq d).TakeProfit = 0
    ∧ (CalculateMetrics sq d).RiskRatio = 0
    ∧ (CalculateMetrics sq d).Volatility = 0
    ∧ (CalculateMetrics sq d).IsOversold = false
    ∧ (CalculateMetrics sq d).IsUndervalued = false := by
  have hcm : CalculateMetrics sq d = { baseResult d with HasError := true, ErrorMessage := e } := by
    unfold CalculateMetrics
    rw [h]
  rw [hcm]
  exact ⟨rfl, rfl, rfl, rfl, rfl, rfl, rfl, rfl, rfl, rfl, rfl, rfl, rfl, rfl, rfl, rfl,
    rfl, rfl⟩

/-- C2 witness: the amended theorem applied at a concrete erroring input. -/
theorem error_shortcircuit_fields_witness :
    (CalculateMetrics sqZero dBad).ConfluenceScore = 0 :=
  (error_shortcircuit_fields sqZero dBad "fetch failed" rfl).2.2.2.2.1

lemma diffs_pos : ∀ (l : List ℚ), List.Chain' (· < ·) l → ∀ c ∈ diffs l, 0 < c
  | [], _, c, hc => by simp [diffs] at hc
  | [_], _, c, hc => by simp [diffs] at hc
  | a :: b :: l, h, c, hc => by
    simp only [diffs, List.mem_cons] at hc
    rcases hc with rfl | hc'
    · have hab : a < b := (List.chain'_cons.mp h).1
      linarith
    · exact diffs_pos (b :: l) (List.chain'_cons.mp h).2 c hc'

lemma wilderStep_nonneg (period : ℕ) (s : ℚ × ℚ) (c : ℚ)
    (h1 : 0 ≤ s.1) (h2 : 0 ≤ s.2) (hp : 1 ≤ period) :
    0 ≤ (wilderStep period s c).1 ∧ 0 ≤ (wilderStep period s c).2 := by
  have hp0 : (0 : ℚ) ≤ (period : ℚ) := by positivity
  have hpm : (0 : ℚ) ≤ (period : ℚ) - 1 := by
    have h : (1 : ℚ) ≤ (period : ℚ) := by exact_mod_cast hp
    linarith
  unfold wilderStep
  split_ifs with hc
  · exact ⟨div_nonneg (add_nonneg (mul_nonneg h1 hpm) hc.le) hp0,
      div_nonneg (mul_nonneg h2 hpm) hp0⟩
  · exact ⟨div_nonneg (mul_nonneg h1 hpm) hp0,
      div_nonneg (add_nonneg (mul_nonneg h2 hpm) (abs_nonneg c)) hp0⟩

lemma foldl_wilder_nonneg (period : ℕ) (hp : 1 ≤ period) :
    ∀ (cs : List ℚ) (s : ℚ × ℚ), 0 ≤ s.1 → 0 ≤ s.2 →
      0 ≤ (cs.foldl (wilderStep period) s).1 ∧ 0 ≤ (cs.foldl (wilderStep period) s).2
  | [], _, h1, h2 => ⟨h1, h2⟩
  | c :: cs, s, h1, h2 => by
    have h := wilderStep_nonneg period s c h1 h2 hp
    simpa using foldl_wilder_nonneg period hp cs (wilderStep period s c) h.1 h.2

lemma foldl_wilder_loss_zero (period : ℕ) :
    ∀ (cs : List ℚ), (∀ c ∈ cs, 0 < c) → ∀ s : ℚ × ℚ, s.2 = 0 →
      (cs.foldl (wilderStep period) s).2 = 0
  | [], _, _, h2 => h2
  | c :: cs, hall, s, h2 => by
    have hc : 0 < c := hall c (List.mem_cons_self c cs)
    have hstep : (wilderStep period s c).2 = 0 := by
      unfold wilderStep
      rw [if_pos hc]
      simp [h2]
    simpa using foldl_wilder_loss_zero period cs
      (fun x hx => hall x (List.mem_cons_of_mem _ hx)) (wilderStep period s c) hstep

lemma rsiSeed_nonneg (changes : List ℚ) (period : ℕ) :
    0 ≤ (rsiSeed changes period).1 ∧ 0 ≤ (rsiSeed changes period).2 := by
  constructor
  · apply div_nonneg _ (by positivity)
    apply List.sum_nonneg
    intro x hx
    obtain ⟨c, _, rfl⟩ := List.mem_map.mp hx
    split_ifs with h
    · exact h.le
    · exact le_refl 0
  · apply div_nonneg _ (by positivity)
    apply List.sum_nonneg
    intro x hx
    obtain ⟨c, _, rfl⟩ := List.mem_map.mp hx
    split_ifs with h
    · exact le_refl 0
    · exact abs_nonneg c

lemma rsiSeed_loss_zero (changes : List ℚ) (period : ℕ)
    (hall : ∀ c ∈ changes.take period, 0 < c) : (rsiSeed changes period).2 = 0 := by
  unfold rsiSeed
  have hz : ∀ x ∈ (changes.take period).map fun c => if 0 < c then 0 else |c|, x = (0 : ℚ) := by
    intro x hx
    obtain ⟨c, hc, rfl⟩ := List.mem_map.mp hx
    rw [if_pos (hall c hc)]
  simp only
  rw [List.sum_eq_zero hz, zero_div]

lemma rsiFromAvg_bounds (s : ℚ × ℚ) (h1 : 0 ≤ s.1) (h2 : 0 ≤ s.2) :
    0 ≤ rsiFromAvg s ∧ rsiFromAvg s ≤ 100 := by
  unfold rsiFromAvg
  split_ifs with h
  · norm_num
  · have hl : 0 < s.2 := lt_of_le_of_ne h2 (Ne.symm h)
    have hrs : 0 ≤ s.1 / s.2 := div_nonneg h1 hl.le
    have hle : 100 / (1 + s.1 / s.2) ≤ 100 := div_le_self (by norm_num) (by linarith)
    have hpos : 0 < 100 / (1 + s.1 / s.2) := div_pos (by norm_num) (by linarith)
    constructor <;> linarith

/-- C7: for every price series and period ≥ 1, `RSI` returns the neutral 50
exactly when the series is shorter than `period+1`; otherwise the guarded
division keeps the result in `[0, 100]`, and on a strictly increasing
(all-gains) series the zero smoothed loss takes the guard branch and
returns exactly 100. -/
theorem rsi_guard_and_bounds (prices : List ℚ) (period : ℕ) (hp : 1 ≤ period) :
    (prices.length < period + 1 → RSI prices period = 50)
    ∧ (period + 1 ≤ prices.length → 0 ≤ RSI prices period ∧ RSI prices period ≤ 100)
    ∧ (period + 1 ≤ prices.length → List.Chain' (· < ·) prices →
        RSI prices period = 100) := by
  refine ⟨fun h => ?_, fun h => ?_, fun h hchain => ?_⟩
  · unfold RSI
    rw [if_pos h]
  · unfold RSI
    rw [if_neg (by omega)]
    have hseed := rsiSeed_nonneg (diffs prices) period
    have hfold := foldl_wilder_nonneg period hp ((diffs prices).drop period) _ hseed.1 hseed.2
    exact rsiFromAvg_bounds _ hfold.1 hfold.2
  · unfold RSI
    rw [if_neg (by omega)]
    have hall : ∀ c ∈ diffs prices, 0 < c := diffs_pos prices hchain
    have hseed0 : (rsiSeed (diffs prices) period).2 = 0 :=
      rsiSeed_loss_zero _ _ fun c hc => hall c (List.take_subset _ _ hc)
    have hfold0 : (((diffs prices).drop period).foldl (wilderStep period)
        (rsiSeed (diffs prices) period)).2 = 0 :=
      foldl_wilder_loss_zero period _ (fun c hc => hall c (List.drop_subset _ _ hc)) _ hseed0
    unfold rsiFromAvg
    rw [if_pos hfold0]

/-- C7 witness: the theorem applied at concrete inputs — a too-short series
returns 50, a strictly increasing series returns 100. -/
theorem rsi_guard_and_bounds_witness :
    RSI [(1 : ℚ)] 1 = 50 ∧ RSI [(1 : ℚ), 2] 1 = 100 :=
  ⟨(rsi_guard_and_bounds [(1 : ℚ)] 1 (by norm_num)).1 (by norm_num),
   (rsi_guard_and_bounds [(1 : ℚ), 2] 1 (by norm_num)).2.2 (by norm_num)
     (List.chain'_cons.mpr ⟨by norm_num, List.chain'_singleton _⟩)⟩

/-- C8: `CalculateSLTP` computes stop-loss `price − atr'·slMult` and
take-profit `price + atr'·tpMult` for the effective ATR (`price·0.02`
substituted when `atr ≤ 0`); risk% and reward% are the percentage
distances from price; the ratio is reward%/risk% (0 when risk% is not
positive); all five are rounded to two decimals. At the spec's concrete
scenario `(100, 2, 2, 3)` it returns 96.00, 106.00, 4.00, 6.00, 1.5. -/
theorem calculateSLTP_formula (currentPrice atr slMultiplier tpMultiplier : ℚ) :
    ((CalculateSLTP currentPrice atr slMultiplier tpMultiplier).StopLoss =
        round2 (currentPrice -
          (if atr ≤ 0 then currentPrice * (2 / 100) else atr) * slMultiplier)
     ∧ (CalculateSLTP currentPrice atr slMultiplier tpMultiplier).TakeProfit =
        round2 (currentPrice +
          (if atr ≤ 0 then currentPrice * (2 / 100) else atr) * tpMultiplier)
     ∧ (CalculateSLTP currentPrice atr slMultiplier tpMultiplier).RiskPercent =
        round2 ((if atr ≤ 0 then currentPrice * (2 / 100) else atr) * slMultiplier
          / currentPrice * 100)
     ∧ (CalculateSLTP currentPrice atr slMultiplier tpMultiplier).RewardPercent =
        round2 ((if atr ≤ 0 then currentPrice * (2 / 100) else atr) * tpMultiplier
          / currentPrice * 100)
     ∧ (CalculateSLTP currentPrice atr slMultiplier tpMultiplier).RiskRatio =
        (if 0 < (if atr ≤ 0 then currentPrice * (2 / 100) else atr) * slMultiplier
              / currentPrice * 100 then
          round2 (((if atr ≤ 0 then currentPrice * (2 / 100) else atr) * tpMultiplier
              / currentPrice * 100)
            / ((if atr ≤ 0 then currentPrice * (2 / 100) else atr) * slMultiplier
              / currentPrice * 100))
         else 0))
    ∧ CalculateSLTP 100 2 2 3 =
        { StopLoss := 96, TakeProfit := 106, RiskPercent := 4, RewardPercent := 6,
          RiskRatio := 3 / 2 } := by
  constructor
  · set a : ℚ := if atr ≤ 0 then currentPrice * (2 / 100) else atr with ha
    have h3 : currentPrice - (currentPrice - a * slMultiplier) = a * slMultiplier := by ring
    have h4 : currentPrice + a * tpMultiplier - currentPrice = a * tpMultiplier := by ring
    have e3 : (CalculateSLTP currentPrice atr slMultiplier tpMultiplier).RiskPercent =
        round2 ((currentPrice - (currentPrice - a * slMultiplier)) / currentPrice * 100) := rfl
    have e4 : (CalculateSLTP currentPrice atr slMultiplier tpMultiplier).RewardPercent =
        round2 ((currentPrice + a * tpMultiplier - currentPrice) / currentPrice * 100) := rfl
    have e5 : (CalculateSLTP currentPrice atr slMultiplier tpMultiplier).RiskRatio =
        round2 (if 0 < (currentPrice - (currentPrice - a * slMultiplier)) / currentPrice * 100
          then ((currentPrice + a * tpMultiplier - currentPrice) / currentPrice * 100)
            / ((currentPrice - (currentPrice - a * slMultiplier)) / currentPrice * 100)
          else 0) := rfl
    refine ⟨rfl, rfl, by rw [e3, h3], by rw [e4, h4], ?_⟩
    rw [e5, h3, h4]
    split_ifs with hpos
    · rfl
    · norm_num [round2, goRound]
  · have hsl : (CalculateSLTP 100 2 2 3).StopLoss = round2 96 := by norm_num [CalculateSLTP]
    have htp : (CalculateSLTP 100 2 2 3).TakeProfit = round2 106 := by norm_num [CalculateSLTP]
    have hrp : (CalculateSLTP 100 2 2 3).RiskPercent = round2 4 := by norm_num [CalculateSLTP]
    have hrw : (CalculateSLTP 100 2 2 3).RewardPercent = round2 6 := by norm_num [CalculateSLTP]
    have hrr : (CalculateSLTP 100 2 2 3).RiskRatio = round2 (3 / 2) := by
      norm_num [CalculateSLTP]
    have h96 : round2 (96 : ℚ) = 96 := by norm_num [round2, goRound]
    have h106 : round2 (106 : ℚ) = 106 := by norm_num [round2, goRound]
    have h4' : round2 (4 : ℚ) = 4 := by norm_num [round2, goRound]
    have h6' : round2 (6 : ℚ) = 6 := by norm_num [round2, goRound]
    have h32 : round2 (3 / 2 : ℚ) = 3 / 2 := by norm_num [round2, goRound]
    have hmk : CalculateSLTP 100 2 2 3 =
        { StopLoss := (CalculateSLTP 100 2 2 3).StopLoss
          TakeProfit := (CalculateSLTP 100 2 2 3).TakeProfit
          RiskPercent := (CalculateSLTP 100 2 2 3).RiskPercent
          RewardPercent := (CalculateSLTP 100 2 2 3).RewardPercent
          RiskRatio := (CalculateSLTP 100 2 2 3).RiskRatio } := rfl
    rw [hmk, hsl, htp, hrp, hrw, hrr, h96, h106, h4', h6', h32]

/-- C9: `PBV` is `price/bvps` for positive book value (so
`PBV 100 50 = 2`) and the +Inf sentinel for `bvps ≤ 0`; and
`ValuationScore` awards 0 points for the P/E bucket whenever the P/E
ratio is +Inf — the bucket is skipped entirely. -/
theorem pbv_definition_and_pe_bucket :
    (∀ price bvps : ℚ, bvps ≤ 0 → PBV price bvps = ⊤)
    ∧ (∀ price bvps : ℚ, 0 < bvps → PBV price bvps = ((price / bvps : ℚ) : WithTop ℚ))
    ∧ PBV 100 50 = ((2 : ℚ) : WithTop ℚ)
    ∧ (∀ (pbv : WithTop ℚ) (grahamUpside : ℚ),
        ValuationScore pbv grahamUpside ⊤ = pbvPoints pbv + grahamPoints grahamUpside) := by
  refine ⟨fun p b hb => ?_, fun p b hb => ?_, ?_, fun pbv gu => ?_⟩
  · rw [PBV, if_pos hb]
  · rw [PBV, if_neg (not_le.mpr hb)]
  · rw [PBV, if_neg (by norm_num)]
    norm_num
  · rw [ValuationScore, pePoints, if_pos rfl, add_zero]

/-- C9 witness: the theorem applied at a concrete non-positive book
value. -/
theorem pbv_definition_and_pe_bucket_witness : PBV 1 0 = ⊤ :=
  pbv_definition_and_pe_bucket.1 1 0 (by norm_num)

lemma scoreStage_PBV (r : ScreenResult) : (scoreStage r).PBV = r.PBV := rfl

lemma scoreStage_GrahamUpside (r : ScreenResult) :
    (scoreStage r).GrahamUpside = r.GrahamUpside := rfl

lemma scoreStage_PERatio (r : ScreenResult) : (scoreStage r).PERatio = r.PERatio := rfl

lemma scoreStage_ValuationScore (r : ScreenResult) :
    (scoreStage r).ValuationScore = ValuationScore r.PBV r.GrahamUpside r.PERatio := rfl

lemma indicatorStage_PBV (sq : ℚ → ℚ) (d : StockData) :
    (indicatorStage sq d).PBV =
      (if 0 < d.BookValue then PBV d.Price d.BookValue else 0) := rfl

/-- C10: `CalculateMetrics` never stores the +Inf sentinel in a result's
`PBV`; in particular, for error-free data with `BookValue ≤ 0` the guard
skips `PBV` entirely, the field stays 0, and that zero lands in the
`pbv < 0.5` bucket of `ValuationScore`, earning the maximum 35 PBV
points. -/
theorem calculateMetrics_pbv_zero_book_value :
    (∀ (sq : ℚ → ℚ) (d : StockData), (CalculateMetrics sq d).PBV ≠ ⊤)
    ∧ (∀ (sq : ℚ → ℚ) (d : StockData), d.Error = none → d.BookValue ≤ 0 →
        (CalculateMetrics sq d).PBV = 0
        ∧ pbvPoints (CalculateMetrics sq d).PBV = 35
        ∧ (CalculateMetrics sq d).ValuationScore =
            35 + grahamPoints (CalculateMetrics sq d).GrahamUpside
              + pePoints (CalculateMetrics sq d).PERatio) := by
  have hok : ∀ (sq : ℚ → ℚ) (d : StockData), d.Error = none → d.BookValue ≤ 0 →
      (CalculateMetrics sq d).PBV = 0 := by
    intro sq d herr hbv
    rw [calculateMetrics_ok sq d herr, scoreStage_PBV, indicatorStage_PBV,
      if_neg (not_lt.mpr hbv)]
  constructor
  · intro sq d
    cases herr : d.Error with
    | some e =>
      have hcm : CalculateMetrics sq d =
          { baseResult d with HasError := true, ErrorMessage := e } := by
        unfold CalculateMetrics
        rw [herr]
      rw [hcm]
      simp [baseResult]
    | none =>
      rw [calculateMetrics_ok sq d herr, scoreStage_PBV, indicatorStage_PBV]
      split_ifs with hb
      · rw [PBV, if_neg (not_le.mpr hb)]
        exact WithTop.coe_ne_top
      · simp
  · intro sq d herr hbv
    have hpbv := hok sq d herr hbv
    have hpts : pbvPoints (CalculateMetrics sq d).PBV = 35 := by
      rw [hpbv, pbvPoints,
        if_pos (show (0 : WithTop ℚ) < ((1 / 2 : ℚ) : WithTop ℚ) from by
          exact_mod_cast (by norm_num : (0 : ℚ) < 1 / 2))]
    refine ⟨hpbv, hpts, ?_⟩
    rw [calculateMetrics_ok sq d herr, scoreStage_ValuationScore, scoreStage_GrahamUpside,
      scoreStage_PERatio]
    have hpbv1 : (indicatorStage sq d).PBV = 0 := by
      rw [indicatorStage_PBV, if_neg (not_lt.mpr hbv)]
    rw [ValuationScore, hpbv1, pbvPoints,
      if_pos (show (0 : WithTop ℚ) < ((1 / 2 : ℚ) : WithTop ℚ) from by
        exact_mod_cast (by norm_num : (0 : ℚ) < 1 / 2))]

/-- C10 witness: the theorem applied at a concrete error-free input with
zero book value. -/
theorem calculateMetrics_pbv_zero_book_value_witness :
    (CalculateMetrics sqZero dOk).PBV = 0
    ∧ pbvPoints (CalculateMetrics sqZero dOk).PBV = 35
    ∧ (CalculateMetrics sqZero dOk).ValuationScore =
        35 + grahamPoints (CalculateMetrics sqZero dOk).GrahamUpside
          + pePoints (CalculateMetrics sqZero dOk).PERatio :=
  calculateMetrics_pbv_zero_book_value.2 sqZero dOk rfl (by norm_num [dOk])

/-- C5: `passesFilter` holds exactly when the result is error-free, the
RSI is in range or unset (≤ 0), the PBV is within bound or unset (≤ 0),
the Graham upside and confluence score meet their minimums, and each
active boolean switch is satisfied. -/
theorem passesFilter_iff (c : FilterCriteria) (r : ScreenResult) :
    passesFilter c r = true ↔
      (r.HasError = false
       ∧ ((c.MinRSI ≤ r.RSI ∧ r.RSI ≤ c.MaxRSI) ∨ r.RSI ≤ 0)
       ∧ (r.PBV ≤ ((c.MaxPBV : ℚ) : WithTop ℚ) ∨ r.PBV ≤ (0 : WithTop ℚ))
       ∧ c.MinGrahamUpside ≤ r.GrahamUpside
       ∧ c.MinConfluence ≤ r.ConfluenceScore
       ∧ (c.OnlyOversold = true → r.IsOversold = true)
       ∧ (c.OnlyUndervalued = true → r.IsUndervalued = true)) := by
  constructor
  · intro hpass
    unfold passesFilter at hpass
    split_ifs at hpass with h1 h2 h3 h4 h5 h6 h7
    have he : r.HasError = false := by
      cases hb : r.HasError
      · rfl
      · exact absurd hb h1
    refine ⟨he, ?_, ?_, not_lt.mp h4, not_lt.mp h5, ?_, ?_⟩
    · rcases le_or_lt r.RSI 0 with hr0 | hr0
      · exact Or.inr hr0
      · have h2' : ¬(r.RSI < c.MinRSI ∨ c.MaxRSI < r.RSI) := fun hor => h2 ⟨hor, hr0⟩
        push_neg at h2'
        exact Or.inl ⟨h2'.1, h2'.2⟩
    · rcases le_or_lt r.PBV (0 : WithTop ℚ) with hp0 | hp0
      · exact Or.inr hp0
      · have h3' : ¬(((c.MaxPBV : ℚ) : WithTop ℚ) < r.PBV) := fun hx => h3 ⟨hx, hp0⟩
        exact Or.inl (not_lt.mp h3')
    · intro ho
      cases hov : r.IsOversold
      · exact absurd ⟨ho, by simp [hov]⟩ h6
      · rfl
    · intro hu
      cases huv : r.IsUndervalued
      · exact absurd ⟨hu, by simp [huv]⟩ h7
      · rfl
  · rintro ⟨he, hrsi, hpbv, hgu, hconf, hov, hun⟩
    unfold passesFilter
    split_ifs with h1 h2 h3 h4 h5 h6 h7
    · rw [he] at h1
      exact absurd h1 (by simp)
    · rcases hrsi with ⟨hmin, hmax⟩ | hr0
      · rcases h2.1 with hlt | hlt
        · exact absurd hmin (not_le.mpr hlt)
        · exact absurd hmax (not_le.mpr hlt)
      · exact absurd h2.2 (not_lt.mpr hr0)
    · rcases hpbv with hle | hle
      · exact absurd hle (not_le.mpr h3.1)
      · exact absurd hle (not_le.mpr h3.2)
    · exact absurd hgu (not_le.mpr h4)
    · exact absurd hconf (not_le.mpr h5)
    · have := hov h6.1
      exact absurd this (by simpa using h6.2)
    · have := hun h7.1
      exact absurd this (by simpa using h7.2)
    · rfl

lemma resultLess_false_consequence (x y : ScreenResult)
    (hxy : resultLess y x = false) :
    (y.IsPinned = true → x.IsPinned = true)
    ∧ (x.IsPinned = y.IsPinned → y.ConfluenceScore ≤ x.ConfluenceScore) := by
  unfold resultLess at hxy
  cases hx : x.IsPinned <;> cases hy : y.IsPinned <;> rw [hx, hy] at hxy <;> simp at hxy <;>
    simp [hx, hy, hxy]

lemma rAB_sorted_swap : sortResultsRel [rA, rB] [rB, rA] := by
  constructor
  · exact List.Perm.swap rB rA []
  · refine List.pairwise_cons.mpr ⟨?_, List.pairwise_singleton _ _⟩
    intro y hy
    rw [List.mem_singleton.mp hy]
    rfl

/-- C6 counterexample: both `[rA, rB]` classifications of the tied,
unpinned pair are sorted for the comparator, so `sort.Slice`'s contract
admits the swapped output `[rB, rA]`; that output differs from the stable
partition the claim requires (which keeps `rA` before `rB`), so stability
does not follow from the code. -/
theorem sortResults_stability_counterexample :
    sortResultsRel [rA, rB] [rB, rA] ∧ [rB, rA] ≠ sortResultsStable [rA, rB] := by
  refine ⟨rAB_sorted_swap, ?_⟩
  decide

/-- C6 amended: every output admitted by `Engine.sortResults`
(`sort.Slice` with the pinned-first, descending-confluence comparator) is
a permutation of the input in which pinned results precede unpinned ones
and confluence scores are non-increasing within each pinned partition;
the relative order of results with equal keys is implementation-defined
(`sort.Slice` is not stable). -/
theorem sortResults_sorted_partition (input output : List ScreenResult)
    (h : sortResultsRel input output) :
    input.Perm output
    ∧ List.Pairwise (fun x y =>
        (y.IsPinned = true → x.IsPinned = true)
        ∧ (x.IsPinned = y.IsPinned → y.ConfluenceScore ≤ x.ConfluenceScore)) output :=
  ⟨h.1, h.2.imp fun hxy => resultLess_false_consequence _ _ hxy⟩

/-- C6 witness: the amended theorem applied at the concrete tied pair. -/
theorem sortResults_sorted_partition_witness :
    ([rA, rB].Perm [rB, rA])
    ∧ List.Pairwise (fun x y =>
        (y.IsPinned = true → x.IsPinned = true)
        ∧ (x.IsPinned = y.IsPinned → y.ConfluenceScore ≤ x.ConfluenceScore)) [rB, rA] :=
  sortResults_sorted_partition [rA, rB] [rB, rA] rAB_sorted_swap

lemma placeholders_cover (watchlist : List String) (results : List ScreenResult)
    (s : String) (hs : s ∈ watchlist) :
    ∃ r ∈ addWatchlistPlaceholders watchlist results, r.Symbol = s := by
  by_cases h : results.any (fun r => r.Symbol == s) = true
  · obtain ⟨r, hr, hrs⟩ := List.any_eq_true.mp h
    exact ⟨r, List.mem_append_left _ hr, by simpa using hrs⟩
  · refine ⟨placeholderFor s, List.mem_append_right _ ?_, rfl⟩
    refine List.mem_map_of_mem placeholderFor ?_
    refine List.mem_filter.mpr ⟨hs, ?_⟩
    simpa using h

/-- C4: for any scan whose universe consists entirely of pinned
(watchlist) symbols, and any criteria — even ones rejecting every real
result — every admissible `Scan` output contains at least one entry per
scanned symbol: pinned results bypass `passesFilter`, and a placeholder is
synthesized for every watchlist symbol absent from the accumulated
results. -/
theorem scan_pinned_coverage (sq : ℚ → ℚ) (watchlist : List String) (c : FilterCriteria)
    (delivered : List StockData) (symbols : List String) (output : List ScreenResult)
    (huniv : ∀ s ∈ symbols, s ∈ watchlist)
    (hscan : ScanRel sq watchlist c delivered output) :
    ∀ s ∈ symbols, ∃ r ∈ output, r.Symbol = s := by
  intro s hs
  obtain ⟨hperm, _⟩ := hscan
  obtain ⟨r, hr, hrs⟩ :=
    placeholders_cover watchlist (scanLoop sq watchlist c delivered) s (huniv s hs)
  exact ⟨r, hperm.mem_iff.mp hr, hrs⟩

lemma scanRel_single_placeholder :
    ScanRel sqZero ["A"] c0 [] [placeholderFor "A"] := by
  unfold ScanRel
  constructor
  · exact List.Perm.refl _
  · exact List.pairwise_singleton _ _

/-- C4 witness: the theorem applied at the concrete one-symbol pinned
universe with an empty delivery stream and a filter rejecting
everything. -/
theorem scan_pinned_coverage_witness :
    ∃ r ∈ [placeholderFor "A"], r.Symbol = "A" :=
  scan_pinned_coverage sqZero ["A"] c0 [] ["A"] [placeholderFor "A"]
    (fun _ hs => hs) scanRel_single_placeholder "A" (List.mem_singleton.mpr rfl)

lemma poolStep_measure (W : ℕ) (fetch : String → Except String StockData)
    {st st' : PoolState} (h : PoolStep W fetch st st') :
    poolMeasure fetch st' = poolMeasure fetch st := by
  cases h with
  | pick s q infl em hW =>
    show (((q ++ (infl ++ [s])).map (fetchResult fetch) : List StockData) : Multiset StockData)
        + (em : Multiset StockData)
      = ((((s :: q) ++ infl).map (fetchResult fetch) : List StockData) : Multiset StockData)
        + (em : Multiset StockData)
    congr 1
    rw [Multiset.coe_eq_coe]
    refine List.Perm.map (fetchResult fetch) ?_
    rw [← List.append_assoc]
    exact List.perm_append_singleton s (q ++ infl)
  | emit q infl₁ infl₂ s em =>
    show (((q ++ (infl₁ ++ infl₂)).map (fetchResult fetch) : List StockData) : Multiset StockData)
        + ((em ++ [fetchResult fetch s] : List StockData) : Multiset StockData)
      = (((q ++ (infl₁ ++ s :: infl₂)).map (fetchResult fetch) : List StockData) :
          Multiset StockData) + (em : Multiset StockData)
    have h2 : List.Perm (q ++ (infl₁ ++ s :: infl₂)) (s :: (q ++ (infl₁ ++ infl₂))) :=
      (List.Perm.append_left q List.perm_middle).trans List.perm_middle
    have h3 : List.Perm ((q ++ (infl₁ ++ s :: infl₂)).map (fetchResult fetch))
        (fetchResult fetch s :: (q ++ (infl₁ ++ infl₂)).map (fetchResult fetch)) := by
      simpa using h2.map (fetchResult fetch)
    rw [show (((q ++ (infl₁ ++ s :: infl₂)).map (fetchResult fetch) : List StockData) :
          Multiset StockData)
        = ((fetchResult fetch s :: (q ++ (infl₁ ++ infl₂)).map (fetchResult fetch) :
            List StockData) : Multiset StockData) from
      Multiset.coe_eq_coe.mpr h3]
    rw [← Multiset.cons_coe, ← Multiset.coe_add]
    simp [Multiset.coe_singleton, ← Multiset.singleton_add, add_comm, add_left_comm, add_assoc]

lemma poolReaches_measure (W : ℕ) (fetch : String → Except String StockData)
    {st st' : PoolState} (h : Relation.ReflTransGen (PoolStep W fetch) st st') :
    poolMeasure fetch st' = poolMeasure fetch st := by
  induction h with
  | refl => rfl
  | tail _ hstep ih => rw [poolStep_measure W fetch hstep, ih]

lemma pool_drain (W : ℕ) (fetch : String → Except String StockData) (hW : 1 ≤ W) :
    ∀ (symbols : List String) (em : List StockData),
      Relation.ReflTransGen (PoolStep W fetch) ⟨symbols, [], em⟩
        ⟨[], [], em ++ symbols.map (fetchResult fetch)⟩
  | [], em => by simpa using Relation.ReflTransGen.refl
  | s :: rest, em => by
    have h1 : PoolStep W fetch ⟨s :: rest, [], em⟩ ⟨rest, [s], em⟩ :=
      PoolStep.pick s rest [] em (by simpa using hW)
    have h2 : PoolStep W fetch ⟨rest, [s], em⟩ ⟨rest, [], em ++ [fetchResult fetch s]⟩ :=
      PoolStep.emit rest [] [] s em
    have h3 := pool_drain W fetch hW rest (em ++ [fetchResult fetch s])
    refine Relation.ReflTransGen.head h1 (Relation.ReflTransGen.head h2 ?_)
    simpa [List.append_assoc] using h3

/-- C3: with no cancellation, every complete `FetchAll` run over `N`
symbols with `W ≥ 1` workers returns exactly `N` results — the emitted
list is a permutation of the per-symbol worker outputs (successes and
error-wrapped failures alike), with no duplicates and no omissions — and
such a complete run exists. -/
theorem fetchAll_completeness (W : ℕ) (fetch : String → Except String StockData)
    (symbols : List String) (hW : 1 ≤ W) :
    (∀ output, FetchAllRel W fetch symbols output →
       output.length = symbols.length
       ∧ output.Perm (symbols.map (fetchResult fetch)))
    ∧ (∃ output, FetchAllRel W fetch symbols output) := by
  constructor
  · rintro output ⟨final, hreach, hq, hi, hem⟩
    have hm := poolReaches_measure W fetch hreach
    rw [show final = ⟨[], [], output⟩ from by
      cases final
      simp_all] at hm
    have hcoe : (output : Multiset StockData)
        = ((symbols.map (fetchResult fetch) : List StockData) : Multiset StockData) := by
      unfold poolMeasure at hm
      simpa using hm
    have hperm : output.Perm (symbols.map (fetchResult fetch)) :=
      Multiset.coe_eq_coe.mp hcoe
    exact ⟨by simpa using hperm.length_eq, hperm⟩
  · refine ⟨symbols.map (fetchResult fetch),
      ⟨⟨[], [], symbols.map (fetchResult fetch)⟩, ?_, rfl, rfl, rfl⟩⟩
    simpa using pool_drain W fetch hW symbols []

/-- C3 witness: the theorem applied at a concrete two-symbol batch over
an all-failing data source with one worker. -/
theorem fetchAll_completeness_witness :
    ∃ output, FetchAllRel 1 fetchNone ["A", "B"] output :=
  (fetchAll_completeness 1 fetchNone ["A", "B"] (by norm_num)).2

end StockMap
